import Mathlib

/- Verification of the flocking simulation in `src/main.rs` (bevy_flocking).

Shallow embedding conventions:
* `f32` values are modelled by the type `F`: an exact real number (`F.fin`),
  `F.pinf` (+infinity), `F.ninf` (-infinity) or `F.nan`.  Arithmetic follows
  the IEEE-754 special-value rules with a single `nan`, no signed zero
  (a real zero behaves like IEEE `+0.0`), and exact real arithmetic in
  place of rounding.
* `glam::Vec2` is modelled componentwise by `V`.  `Vec2::length` is
  `sqrt (x*x + y*y)` and `Vec2::normalize` is `v * (1 / v.length())`
  (glam computes `self * self.length_recip()`), so normalizing a
  zero-length vector yields `nan` components, exactly as in glam.
* Bevy entities are modelled by list indices (`entity.index()` values are
  distinct within a world, which is all the source uses them for); each
  system's query snapshot is the list built at the head of the system,
  mirroring the `collect::<Vec<_>>()` calls in the source.
* A `Transform` only matters to the simulation core through its `x`/`y`
  translation, so an agent is a 2D `position` and `velocity`.
-/

namespace Flocking

noncomputable section

open Classical

/-- IEEE-style f32 value: finite real, +inf, -inf or NaN. -/
inductive F : Type
  | fin (x : ℝ)
  | pinf
  | ninf
  | nan

namespace F

/-- IEEE addition. -/
def add : F → F → F
  | nan, _ => nan
  | _, nan => nan
  | fin a, fin b => fin (a + b)
  | fin _, pinf => pinf
  | fin _, ninf => ninf
  | pinf, fin _ => pinf
  | ninf, fin _ => ninf
  | pinf, pinf => pinf
  | ninf, ninf => ninf
  | pinf, ninf => nan
  | ninf, pinf => nan

/-- IEEE negation. -/
def neg : F → F
  | nan => nan
  | fin a => fin (-a)
  | pinf => ninf
  | ninf => pinf

/-- IEEE subtraction. -/
def sub (a b : F) : F := add a (neg b)

/-- IEEE multiplication (`0 * inf = nan`). -/
def mul : F → F → F
  | nan, _ => nan
  | _, nan => nan
  | fin a, fin b => fin (a * b)
  | fin a, pinf => if 0 < a then pinf else if a < 0 then ninf else nan
  | fin a, ninf => if 0 < a then ninf else if a < 0 then pinf else nan
  | pinf, fin b => if 0 < b then pinf else if b < 0 then ninf else nan
  | ninf, fin b => if 0 < b then ninf else if b < 0 then pinf else nan
  | pinf, pinf => pinf
  | pinf, ninf => ninf
  | ninf, pinf => ninf
  | ninf, ninf => pinf

/-- IEEE division (zero denominators behave like `+0.0`: `0/0 = nan`,
`x/0 = ±inf` for finite nonzero `x`). -/
def div : F → F → F
  | nan, _ => nan
  | _, nan => nan
  | fin a, fin b =>
      if b = 0 then (if a = 0 then nan else if 0 < a then pinf else ninf)
      else fin (a / b)
  | fin _, pinf => fin 0
  | fin _, ninf => fin 0
  | pinf, fin b => if b < 0 then ninf else pinf
  | ninf, fin b => if b < 0 then pinf else ninf
  | pinf, pinf => nan
  | pinf, ninf => nan
  | ninf, pinf => nan
  | ninf, ninf => nan

/-- IEEE square root (`sqrt` of a negative or of `-inf` is `nan`). -/
def sqrtF : F → F
  | nan => nan
  | pinf => pinf
  | ninf => nan
  | fin a => if a < 0 then nan else fin (Real.sqrt a)

/-- IEEE `<` comparison: any comparison involving `nan` is false. -/
def lt : F → F → Prop
  | nan, _ => False
  | _, nan => False
  | fin a, fin b => a < b
  | fin _, pinf => True
  | fin _, ninf => False
  | pinf, fin _ => False
  | ninf, fin _ => True
  | pinf, pinf => False
  | ninf, ninf => False
  | ninf, pinf => True
  | pinf, ninf => False

/-- IEEE `≤` comparison: any comparison involving `nan` is false. -/
def le : F → F → Prop
  | nan, _ => False
  | _, nan => False
  | fin a, fin b => a ≤ b
  | fin _, pinf => True
  | fin _, ninf => False
  | pinf, fin _ => False
  | ninf, fin _ => True
  | pinf, pinf => True
  | ninf, ninf => True
  | ninf, pinf => True
  | pinf, ninf => False

@[simp] theorem add_fin_fin (a b : ℝ) : add (fin a) (fin b) = fin (a + b) := rfl

@[simp] theorem add_nan_left (x : F) : add nan x = nan := by cases x <;> rfl

@[simp] theorem add_nan_right (x : F) : add x nan = nan := by cases x <;> rfl

@[simp] theorem neg_fin (a : ℝ) : neg (fin a) = fin (-a) := rfl

@[simp] theorem neg_nan : neg nan = nan := rfl

@[simp] theorem sub_fin_fin (a b : ℝ) : sub (fin a) (fin b) = fin (a - b) := by
  simp [sub, add, neg, sub_eq_add_neg]

@[simp] theorem sub_nan_left (x : F) : sub nan x = nan := by cases x <;> rfl

@[simp] theorem sub_nan_right (x : F) : sub x nan = nan := by cases x <;> rfl

@[simp] theorem mul_fin_fin (a b : ℝ) : mul (fin a) (fin b) = fin (a * b) := rfl

@[simp] theorem mul_nan_left (x : F) : mul nan x = nan := by cases x <;> rfl

@[simp] theorem mul_nan_right (x : F) : mul x nan = nan := by cases x <;> rfl

@[simp] theorem div_nan_left (x : F) : div nan x = nan := by cases x <;> rfl

@[simp] theorem div_nan_right (x : F) : div x nan = nan := by cases x <;> rfl

@[simp] theorem div_fin_fin (a b : ℝ) (h : b ≠ 0) : div (fin a) (fin b) = fin (a / b) := by
  simp [div, h]

@[simp] theorem div_fin_zero_pos (a : ℝ) (h : 0 < a) : div (fin a) (fin 0) = pinf := by
  simp [div, h.ne', h]

@[simp] theorem mul_fin_pinf (a : ℝ) :
    mul (fin a) pinf = if 0 < a then pinf else if a < 0 then ninf else nan := rfl

@[simp] theorem sqrtF_fin (a : ℝ) :
    sqrtF (fin a) = if a < 0 then nan else fin (Real.sqrt a) := rfl

@[simp] theorem sqrtF_nan : sqrtF nan = nan := rfl

@[simp] theorem lt_fin_fin (a b : ℝ) : lt (fin a) (fin b) ↔ a < b := Iff.rfl

@[simp] theorem lt_fin_nan (x : F) : ¬ lt x nan := by cases x <;> simp [lt]

@[simp] theorem lt_nan_fin (x : F) : ¬ lt nan x := by simp [lt]

@[simp] theorem le_fin_fin (a b : ℝ) : le (fin a) (fin b) ↔ a ≤ b := Iff.rfl

end F

/-- 2D vector of f32 values (`glam::Vec2`). -/
@[ext] structure V : Type where
  x : F
  y : F

namespace V

/-- `Vec2::ZERO`. -/
def zero : V := ⟨F.fin 0, F.fin 0⟩

/-- Componentwise vector addition. -/
def add (u v : V) : V := ⟨F.add u.x v.x, F.add u.y v.y⟩

/-- Componentwise vector subtraction. -/
def sub (u v : V) : V := ⟨F.sub u.x v.x, F.sub u.y v.y⟩

/-- Vector times scalar (`Vec2 * f32`). -/
def muls (v : V) (s : F) : V := ⟨F.mul v.x s, F.mul v.y s⟩

/-- Vector divided by scalar (`Vec2 / f32`). -/
def divs (v : V) (s : F) : V := ⟨F.div v.x s, F.div v.y s⟩

/-- `Vec2::length`: `sqrt (x*x + y*y)` (glam: `self.dot(self).sqrt()`). -/
def length (v : V) : F := F.sqrtF (F.add (F.mul v.x v.x) (F.mul v.y v.y))

/-- `Vec2::normalize`: `self * (1 / self.length())`
(glam: `self.mul(self.length_recip())`); yields `nan` components on a
zero-length vector. -/
def normalize (v : V) : V := muls v (F.div (F.fin 1) (length v))

/-- `Vec2::distance`: `(a - b).length()`. -/
def dist (u v : V) : F := length (sub u v)

@[simp] theorem add_def (ax ay bx by' : F) :
    add ⟨ax, ay⟩ ⟨bx, by'⟩ = ⟨F.add ax bx, F.add ay by'⟩ := rfl

@[simp] theorem sub_def (ax ay bx by' : F) :
    sub ⟨ax, ay⟩ ⟨bx, by'⟩ = ⟨F.sub ax bx, F.sub ay by'⟩ := rfl

@[simp] theorem muls_def (ax ay s : F) : muls ⟨ax, ay⟩ s = ⟨F.mul ax s, F.mul ay s⟩ := rfl

@[simp] theorem divs_def (ax ay s : F) : divs ⟨ax, ay⟩ s = ⟨F.div ax s, F.div ay s⟩ := rfl

/-- Length of a vector lying on the x-axis. -/
theorem length_axis (a : ℝ) : length ⟨F.fin a, F.fin 0⟩ = F.fin |a| := by
  have h : ¬ (a * a < 0) := by nlinarith
  simp [length, h]
  rw [Real.sqrt_mul_self_eq_abs]

/-- Distance of two points on the x-axis. -/
theorem dist_axis (a b : ℝ) :
    dist ⟨F.fin a, F.fin 0⟩ ⟨F.fin b, F.fin 0⟩ = F.fin |a - b| := by
  have h : dist ⟨F.fin a, F.fin 0⟩ ⟨F.fin b, F.fin 0⟩
      = length ⟨F.fin (a - b), F.fin 0⟩ := by
    simp [dist]
  rw [h, length_axis]

/-- Normalizing an x-axis vector pointing right. -/
theorem normalize_axis_pos (a : ℝ) (h : 0 < a) :
    normalize ⟨F.fin a, F.fin 0⟩ = ⟨F.fin 1, F.fin 0⟩ := by
  rw [normalize, length_axis, abs_of_pos h]
  rw [F.div_fin_fin 1 a h.ne']
  simp [muls]
  rw [mul_inv_cancel₀ h.ne']

/-- Normalizing an x-axis vector pointing left. -/
theorem normalize_axis_neg (a : ℝ) (h : a < 0) :
    normalize ⟨F.fin a, F.fin 0⟩ = ⟨F.fin (-1), F.fin 0⟩ := by
  rw [normalize, length_axis, abs_of_neg h]
  rw [F.div_fin_fin 1 (-a) (by linarith)]
  simp [muls]
  rw [inv_neg, mul_neg, mul_inv_cancel₀ h.ne]

/-- Normalizing the zero vector produces NaN components (glam divides by
the zero length: `0 * (1/0) = 0 * inf = nan`). -/
theorem normalize_zero : normalize zero = ⟨F.nan, F.nan⟩ := by
  have h0 : length zero = F.fin 0 := by
    have := length_axis 0
    simpa [zero] using this
  rw [normalize, h0]
  rw [F.div_fin_zero_pos 1 one_pos]
  simp [zero, muls]

end V

/-- `BirdConfiguration` resource (`src/main.rs`, lines 69-80). -/
structure Config : Type where
  alignment : F
  cohesion : F
  seperation : F
  neighbour_radius : F
  seperation_radius : F
  speed : F
  steer : F
  radius : F
  birds_amount : ℕ

/-- One bird: its `Transform` translation (x, y) and its `Velocity`. -/
structure Agent : Type where
  position : V
  velocity : V

/-- `PHYSICS_STEP = 1.0 / 60.0`. -/
def PHYSICS_STEP : F := F.fin (1 / 60)

/-- Pair every list element with its index (models `entity.index()`:
entity indices are distinct within a world, which is all the source
compares them for). -/
def withIndices {α : Type} : ℕ → List α → List (ℕ × α)
  | _, [] => []
  | n, a :: t => (n, a) :: withIndices (n + 1) t

/-- The per-system position snapshot
(`query.into_iter().map(|(entity, transform, _)| (entity.index(), transform.translation.truncate())).collect()`). -/
def posSnapshot (w : List Agent) : List (ℕ × V) :=
  (withIndices 0 w).map (fun p => (p.1, p.2.position))

/-- The alignment system's snapshot of positions and velocities
(`src/main.rs`, lines 303-306). -/
def posVelSnapshot (w : List Agent) : List (ℕ × V × V) :=
  (withIndices 0 w).map (fun p => (p.1, p.2.position, p.2.velocity))

/-- The steering-clamp idiom shared by the three steering systems:
`if steer.length() > configuration.steer { steer = steer.normalize() * configuration.steer }`
(`src/main.rs`, lines 245-247, 291-293, 331-333); `m` is `configuration.steer`. -/
def clampSteer (m : F) (s : V) : V :=
  if F.lt m (V.length s) then V.muls (V.normalize s) m else s

/-- Body of the `cohesion_system` loop for one bird `a` with entity index
`i` (`src/main.rs`, lines 221-251). -/
def cohesionStep (c : Config) (birds : List (ℕ × V)) (i : ℕ) (a : Agent) : Agent :=
  let acc := birds.foldl
    (fun acc b =>
      if b.1 = i then acc
      else if F.lt (V.dist a.position b.2) c.neighbour_radius
        then (acc.1 + 1, V.add acc.2 b.2) else acc)
    ((0 : ℕ), V.zero)
  if 0 < acc.1 then
    let sum := V.divs acc.2 (F.fin (acc.1 : ℝ))
    let desired := V.muls (V.normalize (V.sub sum a.position)) c.speed
    let steer := clampSteer c.steer (V.sub desired a.velocity)
    { a with velocity := V.add a.velocity (V.muls steer c.cohesion) }
  else a

/-- `cohesion_system` (`src/main.rs`, lines 212-252). -/
def cohesion_system (c : Config) (w : List Agent) : List Agent :=
  (withIndices 0 w).map (fun p => cohesionStep c (posSnapshot w) p.1 p.2)

/-- Body of the `seperation_system` loop for one bird (`src/main.rs`,
lines 263-296). -/
def seperationStep (c : Config) (birds : List (ℕ × V)) (i : ℕ) (a : Agent) : Agent :=
  let acc := birds.foldl
    (fun acc b =>
      if b.1 = i then acc
      else
        let distance := V.dist a.position b.2
        if F.lt distance c.seperation_radius
          then (acc.1 + 1, V.add acc.2 (V.divs (V.normalize (V.sub a.position b.2)) distance))
          else acc)
    ((0 : ℕ), V.zero)
  let sum := if 0 < acc.1 then V.divs acc.2 (F.fin (acc.1 : ℝ)) else acc.2
  if F.lt (F.fin 0) (V.length sum) then
    let sum := V.sub (V.muls (V.normalize sum) c.speed) a.velocity
    let sum := clampSteer c.steer sum
    { a with velocity := V.add a.velocity (V.muls sum c.seperation) }
  else a

/-- `seperation_system` (`src/main.rs`, lines 254-297). -/
def seperation_system (c : Config) (w : List Agent) : List Agent :=
  (withIndices 0 w).map (fun p => seperationStep c (posSnapshot w) p.1 p.2)

/-- Body of the `alignment_system` loop for one bird (`src/main.rs`,
lines 308-337). -/
def alignmentStep (c : Config) (birds : List (ℕ × V × V)) (i : ℕ) (a : Agent) : Agent :=
  let acc := birds.foldl
    (fun acc b =>
      if b.1 = i then acc
      else if F.lt (V.dist a.position b.2.1) c.neighbour_radius
        then (acc.1 + 1, V.add acc.2 b.2.2) else acc)
    ((0 : ℕ), V.zero)
  if 0 < acc.1 then
    let sum := V.muls (V.normalize (V.divs acc.2 (F.fin (acc.1 : ℝ)))) c.speed
    let steer := clampSteer c.steer (V.sub sum a.velocity)
    { a with velocity := V.add a.velocity (V.muls steer c.alignment) }
  else a

/-- `alignment_system` (`src/main.rs`, lines 299-338).  Note its snapshot
is taken when the system runs, so it carries velocities as already updated
by whichever steering systems ran earlier in the same tick. -/
def alignment_system (c : Config) (w : List Agent) : List Agent :=
  (withIndices 0 w).map (fun p => alignmentStep c (posVelSnapshot w) p.1 p.2)

/-- `movement_system` (`src/main.rs`, lines 138-144):
`transform.translation += (velocity.0 * PHYSICS_STEP).extend(0.0)`. -/
def movement_system (w : List Agent) : List Agent :=
  w.map (fun a => { a with position := V.add a.position (V.muls a.velocity PHYSICS_STEP) })

/-- Body of the `wrapping_system` loop (`src/main.rs`, lines 196-209);
`width`/`height` are the window half-extents computed at lines 194. -/
def wrapAgent (c : Config) (width height : F) (a : Agent) : Agent :=
  let x :=
    if F.lt width (F.sub a.position.x c.radius) then F.sub (F.neg width) c.radius
    else if F.lt (F.add a.position.x c.radius) (F.neg width) then F.add width c.radius
    else a.position.x
  let y :=
    if F.lt height (F.sub a.position.y c.radius) then F.sub (F.neg height) c.radius
    else if F.lt (F.add a.position.y c.radius) (F.neg height) then F.add height c.radius
    else a.position.y
  { a with position := ⟨x, y⟩ }

/-- `wrapping_system` (`src/main.rs`, lines 182-210). -/
def wrapping_system (c : Config) (width height : F) (w : List Agent) : List Agent :=
  w.map (wrapAgent c width height)

/-- `spawn_birds` (`src/main.rs`, lines 89-136), restricted to simulation
state (sprite/texture-atlas setup is presentation).  `width`/`height` are
the window half-extents (line 97).  `rng k lo hi` models the value of the
`k`-th `rng.gen_range(lo..=hi)` float draw of the loop (the two integer
sprite draws per bird do not touch simulation state and are not counted);
bird `k` draws its position x, position y, velocity x, velocity y in that
order.  No configuration validation of any kind appears in the source. -/
def spawn_birds (width height : ℝ) (c : Config) (rng : ℕ → ℝ → ℝ → ℝ) : List Agent :=
  (List.range c.birds_amount).map (fun k =>
    { position := ⟨F.fin (rng (4 * k) (-width) width), F.fin (rng (4 * k + 1) (-height) height)⟩
      velocity := ⟨F.fin (rng (4 * k + 2) (-1) 1), F.fin (rng (4 * k + 3) (-1) 1)⟩ })

/-- The five fixed-timestep systems registered in `main`
(`src/main.rs`, lines 43-51). -/
inductive Sys : Type
  | cohesion
  | seperation
  | alignment
  | movement
  | wrapping
deriving DecidableEq

/-- The systems in the order they are listed in `main`. -/
def tickSystems : List Sys := [Sys.cohesion, Sys.seperation, Sys.alignment, Sys.movement, Sys.wrapping]

/-- Run one system on the world. -/
def runSys (c : Config) (width height : F) : Sys → List Agent → List Agent
  | Sys.cohesion, w => cohesion_system c w
  | Sys.seperation, w => seperation_system c w
  | Sys.alignment, w => alignment_system c w
  | Sys.movement, w => movement_system w
  | Sys.wrapping, w => wrapping_system c width height w

/-- Run a sequence of systems left to right. -/
def runSchedule (c : Config) (width height : F) (order : List Sys) (w : List Agent) : List Agent :=
  order.foldl (fun st s => runSys c width height s st) w

/-- The `SystemSet` at `src/main.rs` lines 43-51 registers the five systems
with a shared fixed-timestep run criterion but no ordering constraint
(no `before`/`after`/labels).  All five systems conflict pairwise on
`Transform`/`Velocity` access, so Bevy 0.9 executes them sequentially, in
an order it is free to choose: an allowed tick execution is any
permutation of the five systems. -/
def allowedOrder (order : List Sys) : Bool := order.isPerm tickSystems

/-- The three steering systems. -/
def steeringSystems : List Sys := [Sys.cohesion, Sys.seperation, Sys.alignment]

/-- The tick-ordering property claimed by the spec: every steering system
runs before the integrator, and the integrator before the boundary wrap. -/
def barrierOrder (order : List Sys) : Bool :=
  steeringSystems.all (fun s => decide (order.indexOf s < order.indexOf Sys.movement)) &&
    decide (order.indexOf Sys.movement < order.indexOf Sys.wrapping)

/-- The world state a given system sees when it runs: the given schedule's
systems before that system's (first) occurrence have already executed. -/
def stateWhenRuns (c : Config) (width height : F) (s : Sys) (order : List Sys)
    (w : List Agent) : List Agent :=
  runSchedule c width height (order.takeWhile (fun t => !(t == s))) w

@[simp] theorem length_withIndices {α : Type} (n : ℕ) (l : List α) :
    (withIndices n l).length = l.length := by
  induction l generalizing n with
  | nil => rfl
  | cons a t ih => simp [withIndices, ih]

theorem get_withIndices {α : Type} (n : ℕ) (l : List α) (i : ℕ) (h : i < l.length)
    (h2 : i < (withIndices n l).length) :
    (withIndices n l).get ⟨i, h2⟩ = (n + i, l.get ⟨i, h⟩) := by
  induction l generalizing n i with
  | nil => exact absurd h (by simp)
  | cons a t ih =>
    cases i with
    | zero => simp [withIndices]
    | succ j =>
      have hj : j < t.length := by simpa using h
      have hj2 : j < (withIndices (n + 1) t).length := by simpa using hj
      have := ih (n + 1) j hj hj2
      simp only [withIndices, List.get_cons_succ]
      rw [this]
      ring_nf

theorem mem_withIndices {α : Type} (p : ℕ × α) (n : ℕ) (l : List α)
    (hp : p ∈ withIndices n l) :
    ∃ j, ∃ hj : j < l.length, p = (n + j, l.get ⟨j, hj⟩) := by
  induction l generalizing n with
  | nil => exact absurd hp (by simp [withIndices])
  | cons a t ih =>
    rcases (by simpa [withIndices] using hp : p = (n, a) ∨ p ∈ withIndices (n + 1) t) with h | h
    · exact ⟨0, by simp, by simpa using h⟩
    · rcases ih (n + 1) h with ⟨j, hj, hpj⟩
      exact ⟨j + 1, by simpa using hj, by simpa [Nat.add_assoc, Nat.add_comm 1 j] using hpj⟩

theorem map_snd_withIndices {α β : Type} (g : α → β) (n : ℕ) (l : List α) :
    (withIndices n l).map (fun q => g q.2) = l.map g := by
  induction l generalizing n with
  | nil => rfl
  | cons a t ih => simp [withIndices, ih]

theorem foldl_const {α β : Type} (l : List α) (f : β → α → β)
    (h : ∀ b ∈ l, ∀ acc, f acc b = acc) : ∀ acc, l.foldl f acc = acc := by
  induction l with
  | nil => intro acc; rfl
  | cons a t ih =>
    intro acc
    rw [List.foldl_cons, h a (by simp)]
    exact ih (fun b hb => h b (by simp [hb])) acc

theorem cohesionStep_position (c : Config) (birds : List (ℕ × V)) (i : ℕ) (a : Agent) :
    (cohesionStep c birds i a).position = a.position := by
  unfold cohesionStep
  dsimp only
  split <;> rfl

theorem seperationStep_position (c : Config) (birds : List (ℕ × V)) (i : ℕ) (a : Agent) :
    (seperationStep c birds i a).position = a.position := by
  unfold seperationStep
  dsimp only
  split <;> split <;> rfl

theorem alignmentStep_position (c : Config) (birds : List (ℕ × V × V)) (i : ℕ) (a : Agent) :
    (alignmentStep c birds i a).position = a.position := by
  unfold alignmentStep
  dsimp only
  split <;> rfl

/-- The cohesion system never modifies a position. -/
theorem cohesion_system_positions (c : Config) (w : List Agent) :
    (cohesion_system c w).map (fun a => a.position) = w.map (fun a => a.position) := by
  unfold cohesion_system
  rw [List.map_map]
  rw [List.map_congr_left (fun p _ => cohesionStep_position c (posSnapshot w) p.1 p.2)]
  exact map_snd_withIndices _ 0 w

/-- The seperation system never modifies a position. -/
theorem seperation_system_positions (c : Config) (w : List Agent) :
    (seperation_system c w).map (fun a => a.position) = w.map (fun a => a.position) := by
  unfold seperation_system
  rw [List.map_map]
  rw [List.map_congr_left (fun p _ => seperationStep_position c (posSnapshot w) p.1 p.2)]
  exact map_snd_withIndices _ 0 w

/-- The alignment system never modifies a position. -/
theorem alignment_system_positions (c : Config) (w : List Agent) :
    (alignment_system c w).map (fun a => a.position) = w.map (fun a => a.position) := by
  unfold alignment_system
  rw [List.map_map]
  rw [List.map_congr_left (fun p _ => alignmentStep_position c (posVelSnapshot w) p.1 p.2)]
  exact map_snd_withIndices _ 0 w

@[simp] theorem cohesion_system_length (c : Config) (w : List Agent) :
    (cohesion_system c w).length = w.length := by
  simp [cohesion_system]

@[simp] theorem seperation_system_length (c : Config) (w : List Agent) :
    (seperation_system c w).length = w.length := by
  simp [seperation_system]

@[simp] theorem alignment_system_length (c : Config) (w : List Agent) :
    (alignment_system c w).length = w.length := by
  simp [alignment_system]

@[simp] theorem movement_system_length (w : List Agent) :
    (movement_system w).length = w.length := by
  simp [movement_system]

@[simp] theorem wrapping_system_length (c : Config) (width height : F) (w : List Agent) :
    (wrapping_system c width height w).length = w.length := by
  simp [wrapping_system]

/-- Any IEEE square root is NaN, +inf, or a nonnegative finite value. -/
theorem sqrtF_cases (x : F) :
    F.sqrtF x = F.nan ∨ F.sqrtF x = F.pinf ∨ ∃ d, 0 ≤ d ∧ F.sqrtF x = F.fin d := by
  cases x with
  | fin a =>
    by_cases h : a < 0
    · exact Or.inl (by simp [F.sqrtF, h])
    · exact Or.inr (Or.inr ⟨Real.sqrt a, Real.sqrt_nonneg a, by simp [F.sqrtF, h]⟩)
  | pinf => exact Or.inr (Or.inl rfl)
  | ninf => exact Or.inl rfl
  | nan => exact Or.inl rfl

@[simp] theorem not_lt_pinf_fin (b : ℝ) : ¬ F.lt F.pinf (F.fin b) := fun h => h

/-- A distance is never below a nonpositive threshold (distances are NaN,
+inf or nonnegative, and NaN comparisons are false). -/
theorem not_dist_lt_nonpos (p q : V) (r : ℝ) (hr : r ≤ 0) :
    ¬ F.lt (V.dist p q) (F.fin r) := by
  have : V.dist p q = F.sqrtF (F.add (F.mul (V.sub p q).x (V.sub p q).x)
      (F.mul (V.sub p q).y (V.sub p q).y)) := rfl
  rcases sqrtF_cases (F.add (F.mul (V.sub p q).x (V.sub p q).x)
      (F.mul (V.sub p q).y (V.sub p q).y)) with h | h | ⟨d, hd, h⟩ <;>
    rw [this, h]
  · simp
  · simp
  · simp only [F.lt_fin_fin]
    intro hlt
    linarith

theorem length_zero_vec : V.length V.zero = F.fin 0 := by
  have := V.length_axis 0
  simpa [V.zero] using this

/-- If no snapshot entry is a cohesion neighbour of `a`, the cohesion step
leaves `a` unchanged. -/
theorem cohesionStep_far (c : Config) (birds : List (ℕ × V)) (i : ℕ) (a : Agent)
    (h : ∀ b ∈ birds, b.1 ≠ i → ¬ F.lt (V.dist a.position b.2) c.neighbour_radius) :
    cohesionStep c birds i a = a := by
  unfold cohesionStep
  rw [foldl_const _ _ (fun b hb acc => by
    by_cases hbi : b.1 = i
    · simp [hbi]
    · simp [hbi, h b hb hbi])]
  simp

/-- If no snapshot entry is a seperation neighbour of `a`, the seperation
step leaves `a` unchanged. -/
theorem seperationStep_far (c : Config) (birds : List (ℕ × V)) (i : ℕ) (a : Agent)
    (h : ∀ b ∈ birds, b.1 ≠ i → ¬ F.lt (V.dist a.position b.2) c.seperation_radius) :
    seperationStep c birds i a = a := by
  unfold seperationStep
  rw [foldl_const _ _ (fun b hb acc => by
    by_cases hbi : b.1 = i
    · simp [hbi]
    · simp [hbi, h b hb hbi])]
  simp [length_zero_vec]

theorem get_map {α β : Type} (f : α → β) (l : List α) (i : ℕ) (hi : i < l.length)
    (h2 : i < (l.map f).length) :
    (l.map f).get ⟨i, h2⟩ = f (l.get ⟨i, hi⟩) := by
  rw [List.get_eq_getElem, List.get_eq_getElem, List.getElem_map]

theorem get_map_withIndices {α β : Type} (g : ℕ × α → β) (n : ℕ) (l : List α) (i : ℕ)
    (hi : i < l.length) (h2 : i < ((withIndices n l).map g).length) :
    ((withIndices n l).map g).get ⟨i, h2⟩ = g (n + i, l.get ⟨i, hi⟩) := by
  rw [get_map g (withIndices n l) i (by simpa using hi) h2,
    get_withIndices n l i hi]

theorem cohesion_system_get (c : Config) (w : List Agent) (i : ℕ) (hi : i < w.length)
    (h2 : i < (cohesion_system c w).length) :
    (cohesion_system c w).get ⟨i, h2⟩ = cohesionStep c (posSnapshot w) i (w.get ⟨i, hi⟩) := by
  unfold cohesion_system
  simpa using get_map_withIndices (fun p => cohesionStep c (posSnapshot w) p.1 p.2) 0 w i hi (by simpa using hi)

theorem seperation_system_get (c : Config) (w : List Agent) (i : ℕ) (hi : i < w.length)
    (h2 : i < (seperation_system c w).length) :
    (seperation_system c w).get ⟨i, h2⟩ = seperationStep c (posSnapshot w) i (w.get ⟨i, hi⟩) := by
  unfold seperation_system
  simpa using get_map_withIndices (fun p => seperationStep c (posSnapshot w) p.1 p.2) 0 w i hi (by simpa using hi)

theorem alignment_system_get (c : Config) (w : List Agent) (i : ℕ) (hi : i < w.length)
    (h2 : i < (alignment_system c w).length) :
    (alignment_system c w).get ⟨i, h2⟩ = alignmentStep c (posVelSnapshot w) i (w.get ⟨i, hi⟩) := by
  unfold alignment_system
  simpa using get_map_withIndices (fun p => alignmentStep c (posVelSnapshot w) p.1 p.2) 0 w i hi (by simpa using hi)

theorem movement_system_get (w : List Agent) (i : ℕ) (hi : i < w.length)
    (h2 : i < (movement_system w).length) :
    (movement_system w).get ⟨i, h2⟩ =
      { w.get ⟨i, hi⟩ with
        position := V.add (w.get ⟨i, hi⟩).position
          (V.muls (w.get ⟨i, hi⟩).velocity PHYSICS_STEP) } := by
  unfold movement_system
  exact get_map _ w i hi _

theorem mem_posSnapshot (w : List Agent) (b : ℕ × V) (hb : b ∈ posSnapshot w) :
    ∃ j, ∃ hj : j < w.length, b = (j, (w.get ⟨j, hj⟩).position) := by
  unfold posSnapshot at hb
  rcases List.mem_map.1 hb with ⟨p, hp, rfl⟩
  rcases mem_withIndices p 0 w hp with ⟨j, hj, rfl⟩
  exact ⟨j, hj, by simp⟩

theorem mem_posVelSnapshot (w : List Agent) (b : ℕ × V × V) (hb : b ∈ posVelSnapshot w) :
    ∃ j, ∃ hj : j < w.length,
      b = (j, (w.get ⟨j, hj⟩).position, (w.get ⟨j, hj⟩).velocity) := by
  unfold posVelSnapshot at hb
  rcases List.mem_map.1 hb with ⟨p, hp, rfl⟩
  rcases mem_withIndices p 0 w hp with ⟨j, hj, rfl⟩
  exact ⟨j, hj, by simp⟩

/-- If no snapshot entry is an alignment neighbour of `a`, the alignment
step leaves `a` unchanged. -/
theorem alignmentStep_far (c : Config) (birds : List (ℕ × V × V)) (i : ℕ) (a : Agent)
    (h : ∀ b ∈ birds, b.1 ≠ i → ¬ F.lt (V.dist a.position b.2.1) c.neighbour_radius) :
    alignmentStep c birds i a = a := by
  unfold alignmentStep
  rw [foldl_const _ _ (fun b hb acc => by
    by_cases hbi : b.1 = i
    · simp [hbi]
    · simp [hbi, h b hb hbi])]
  simp

/-- Length of a finite vector. -/
theorem length_fin (a b : ℝ) :
    V.length ⟨F.fin a, F.fin b⟩ = F.fin (Real.sqrt (a * a + b * b)) := by
  have h : ¬ (a * a + b * b < 0) := by nlinarith
  simp [V.length, h]

/-- Normalizing a finite vector of nonzero length divides both components
by the length. -/
theorem normalize_fin (a b : ℝ) (h : Real.sqrt (a * a + b * b) ≠ 0) :
    V.normalize ⟨F.fin a, F.fin b⟩ =
      ⟨F.fin (a * (1 / Real.sqrt (a * a + b * b))),
        F.fin (b * (1 / Real.sqrt (a * a + b * b)))⟩ := by
  rw [V.normalize, length_fin, F.div_fin_fin 1 _ h]
  simp [V.muls]

/-- `wrapAgent` on finite inputs, with the branch structure lifted to the
reals. -/
theorem wrapAgent_fin (c : Config) (wr hr r px py : ℝ) (v : V)
    (hrad : c.radius = F.fin r) :
    wrapAgent c (F.fin wr) (F.fin hr) { position := ⟨F.fin px, F.fin py⟩, velocity := v } =
      { position :=
          ⟨F.fin (if wr < px - r then -wr - r else if px + r < -wr then wr + r else px),
            F.fin (if hr < py - r then -hr - r else if py + r < -hr then hr + r else py)⟩,
        velocity := v } := by
  unfold wrapAgent
  rw [hrad]
  simp only [F.sub_fin_fin, F.neg_fin, F.add_fin_fin, F.lt_fin_fin]
  split_ifs <;> simp_all

/-- Shorthand for a finite agent: position `(px, py)`, velocity `(vx, vy)`. -/
def agent (px py vx vy : ℝ) : Agent :=
  { position := ⟨F.fin px, F.fin py⟩, velocity := ⟨F.fin vx, F.fin vy⟩ }

/-- The `BirdConfiguration` inserted in `main` (`src/main.rs`, lines 30-40). -/
def cfg0 : Config :=
  { alignment := F.fin 1
    cohesion := F.fin 1
    seperation := F.fin 1.5
    neighbour_radius := F.fin 90
    seperation_radius := F.fin 50
    speed := F.fin 100
    steer := F.fin 2
    radius := F.fin 32
    birds_amount := 500 }

/-- Window half-width (`1600.0 / 2`). -/
def W0 : F := F.fin 800

/-- Window half-height (`900.0 / 2`). -/
def H0 : F := F.fin 450

/-- Two stationary birds 40 apart (the spec's concrete seperation scenario). -/
def w40 : List Agent := [agent 0 0 0 0, agent 40 0 0 0]

theorem seperation_w40 :
    seperation_system cfg0 w40 = [agent 0 0 (-3) 0, agent 40 0 3 0] := by
  norm_num [seperation_system, posSnapshot, withIndices, seperationStep, clampSteer,
    w40, agent, cfg0, V.zero, V.dist_axis, V.length_axis, V.normalize_axis_pos,
    V.normalize_axis_neg, abs_of_nonneg, abs_of_nonpos]

/-- Two birds at the same point: the degenerate world of the no-NaN claim. -/
def w00 : List Agent := [agent 0 0 0 0, agent 0 0 0 0]

/-- A bird whose velocity has been poisoned with NaN. -/
def agentNanVel : Agent := { position := ⟨F.fin 0, F.fin 0⟩, velocity := ⟨F.nan, F.nan⟩ }

/-- A bird whose position and velocity are NaN. -/
def agentNan : Agent := { position := ⟨F.nan, F.nan⟩, velocity := ⟨F.nan, F.nan⟩ }

theorem cohesion_w00 : cohesion_system cfg0 w00 = [agentNanVel, agentNanVel] := by
  norm_num [cohesion_system, posSnapshot, withIndices, cohesionStep, clampSteer,
    w00, agent, agentNanVel, cfg0, V.zero, V.dist, V.length, V.normalize, V.sub_def,
    F.sqrtF, Real.sqrt_zero]

theorem seperation_nanvel :
    seperation_system cfg0 [agentNanVel, agentNanVel] = [agentNanVel, agentNanVel] := by
  norm_num [seperation_system, posSnapshot, withIndices, seperationStep, clampSteer,
    agentNanVel, cfg0, V.zero, V.dist, V.length, V.normalize, V.sub_def,
    F.sqrtF, Real.sqrt_zero]

theorem alignment_nanvel :
    alignment_system cfg0 [agentNanVel, agentNanVel] = [agentNanVel, agentNanVel] := by
  norm_num [alignment_system, posVelSnapshot, withIndices, alignmentStep, clampSteer,
    agentNanVel, cfg0, V.zero, V.dist, V.length, V.normalize, V.sub_def,
    F.sqrtF, Real.sqrt_zero]

theorem movement_nanvel :
    movement_system [agentNanVel, agentNanVel] = [agentNan, agentNan] := by
  norm_num [movement_system, agentNanVel, agentNan, PHYSICS_STEP, V.add, V.muls]

theorem wrapping_nan :
    wrapping_system cfg0 W0 H0 [agentNan, agentNan] = [agentNan, agentNan] := by
  norm_num [wrapping_system, wrapAgent, agentNan, cfg0, W0, H0]

/-- Two birds 80 apart (inside `neighbour_radius`, outside
`seperation_radius`) with distinct velocities. -/
def w80 : List Agent := [agent 0 0 1 0, agent 80 0 5 0]

/-- `w80` after the cohesion system. -/
def w80a : List Agent := [agent 0 0 3 0, agent 80 0 3 0]

/-- `w80a` after the alignment system. -/
def w80b : List Agent := [agent 0 0 5 0, agent 80 0 5 0]

/-- `w80b` after the integrator: the tick outcome in the listed order. -/
def w80good : List Agent := [agent (1 / 12) 0 5 0, agent (80 + 1 / 12) 0 5 0]

/-- `w80` after the integrator runs first (integrator-first order). -/
def w80m : List Agent := [agent (1 / 60) 0 1 0, agent (80 + 1 / 12) 0 5 0]

/-- `w80m` after cohesion. -/
def w80mc : List Agent := [agent (1 / 60) 0 3 0, agent (80 + 1 / 12) 0 3 0]

/-- The tick outcome of the integrator-first order on `w80`. -/
def w80bad : List Agent := [agent (1 / 60) 0 5 0, agent (80 + 1 / 12) 0 5 0]

theorem cohesion_w80 : cohesion_system cfg0 w80 = w80a := by
  norm_num [cohesion_system, posSnapshot, withIndices, cohesionStep, clampSteer,
    w80, w80a, agent, cfg0, V.zero, V.dist_axis, V.length_axis,
    V.normalize_axis_pos, V.normalize_axis_neg, abs_of_nonneg, abs_of_nonpos]

theorem seperation_w80a : seperation_system cfg0 w80a = w80a := by
  norm_num [seperation_system, posSnapshot, withIndices, seperationStep, clampSteer,
    w80a, agent, cfg0, V.zero, V.dist_axis, V.length_axis,
    V.normalize_axis_pos, V.normalize_axis_neg, length_zero_vec, abs_of_nonneg, abs_of_nonpos]

theorem alignment_w80a : alignment_system cfg0 w80a = w80b := by
  norm_num [alignment_system, posVelSnapshot, withIndices, alignmentStep, clampSteer,
    w80a, w80b, agent, cfg0, V.zero, V.dist_axis, V.length_axis,
    V.normalize_axis_pos, V.normalize_axis_neg, abs_of_nonneg, abs_of_nonpos]

theorem movement_w80b : movement_system w80b = w80good := by
  norm_num [movement_system, w80b, w80good, agent, PHYSICS_STEP, V.add, V.muls]

theorem wrapping_w80good : wrapping_system cfg0 W0 H0 w80good = w80good := by
  norm_num [wrapping_system, wrapAgent, w80good, agent, cfg0, W0, H0]

theorem movement_w80 : movement_system w80 = w80m := by
  norm_num [movement_system, w80, w80m, agent, PHYSICS_STEP, V.add, V.muls]

theorem wrapping_w80m : wrapping_system cfg0 W0 H0 w80m = w80m := by
  norm_num [wrapping_system, wrapAgent, w80m, agent, cfg0, W0, H0]

theorem cohesion_w80m : cohesion_system cfg0 w80m = w80mc := by
  norm_num [cohesion_system, posSnapshot, withIndices, cohesionStep, clampSteer,
    w80m, w80mc, agent, cfg0, V.zero, V.dist_axis, V.length_axis,
    V.normalize_axis_pos, V.normalize_axis_neg, abs_of_nonneg, abs_of_nonpos]

theorem seperation_w80mc : seperation_system cfg0 w80mc = w80mc := by
  norm_num [seperation_system, posSnapshot, withIndices, seperationStep, clampSteer,
    w80mc, agent, cfg0, V.zero, V.dist_axis, V.length_axis,
    V.normalize_axis_pos, V.normalize_axis_neg, length_zero_vec, abs_of_nonneg, abs_of_nonpos]

theorem alignment_w80mc : alignment_system cfg0 w80mc = w80bad := by
  norm_num [alignment_system, posVelSnapshot, withIndices, alignmentStep, clampSteer,
    w80mc, w80bad, agent, cfg0, V.zero, V.dist_axis, V.length_axis,
    V.normalize_axis_pos, V.normalize_axis_neg, abs_of_nonneg, abs_of_nonpos]

/-- C1: the no-NaN claim fails on the code.  With the configuration
inserted in `main` (positive radii 90 and 50) and two birds that share the
position `(0,0)`, one tick in the listed order poisons every velocity and
position with NaN: `cohesion_system` computes `desired = sum/count -
position = (0,0)` for each bird and normalizes it with no zero-length
guard (`src/main.rs` line 241), so `desired.normalize()` is `(nan, nan)`
and the NaN reaches the stored velocities, then the integrated positions.
(The spec instead mandates that every normalize be guarded.) -/
theorem C1_tick_produces_nan :
    runSchedule cfg0 W0 H0 tickSystems w00 = [agentNan, agentNan] := by
  simp [runSchedule, tickSystems, runSys, cohesion_w00, seperation_nanvel,
    alignment_nanvel, movement_nanvel, wrapping_nan]

/-- C2 counterexample: under the listed schedule (an allowed execution of
the tick) and the two-bird world `w80`, the velocities present when the
alignment system runs — and hence the velocities its snapshot averages —
are not the tick-start velocities: the cohesion system has already changed
them from `(1,0), (5,0)` to `(3,0), (3,0)`. -/
theorem C2_counterexample :
    allowedOrder tickSystems = true ∧
    (stateWhenRuns cfg0 W0 H0 Sys.alignment tickSystems w80).map (fun a => a.velocity) ≠
      w80.map (fun a => a.velocity) := by
  constructor
  · decide
  · have ht : tickSystems.takeWhile (fun t => !(t == Sys.alignment)) =
        [Sys.cohesion, Sys.seperation] := by decide
    have h1 : stateWhenRuns cfg0 W0 H0 Sys.alignment tickSystems w80 = w80a := by
      unfold stateWhenRuns
      rw [ht]
      simp [runSchedule, runSys, cohesion_w80, seperation_w80a]
    rw [h1]
    norm_num [w80a, w80, agent]

/-- C2 amended: no steering system modifies any position, so the position
snapshots that cohesion, seperation and alignment read reflect tick-start
positions; each system snapshots velocities only as of the moment that
system runs, so (per the counterexample) alignment may average velocities
already updated by cohesion or seperation in the same tick. -/
theorem C2_steering_reads (c : Config) (w : List Agent) :
    (cohesion_system c w).map (fun a => a.position) = w.map (fun a => a.position) ∧
    (seperation_system c w).map (fun a => a.position) = w.map (fun a => a.position) ∧
    (alignment_system c w).map (fun a => a.position) = w.map (fun a => a.position) :=
  ⟨cohesion_system_positions c w, seperation_system_positions c w,
    alignment_system_positions c w⟩

/-- C3 counterexample: it is not the case that every allowed execution
order of the fixed-timestep system set runs all steering before the
integrator and the integrator before the wrap — the code declares no
ordering constraint, so the integrator-first permutation is allowed. -/
theorem C3_counterexample :
    ¬ (∀ order : List Sys, allowedOrder order = true → barrierOrder order = true) := by
  intro h
  exact absurd
    (h [Sys.movement, Sys.wrapping, Sys.cohesion, Sys.seperation, Sys.alignment] (by decide))
    (by decide)

/-- C3 amended: the five systems do run inside one fixed-timestep set and
the listed order satisfies steering → integrator → wrap, but the code
imposes no intra-tick ordering: the integrator-first permutation is
equally allowed, violates the barrier property, and produces a different
tick outcome on the same world (`w80`), so no steering/integration barrier
is guaranteed. -/
theorem C3_no_ordering_constraints :
    barrierOrder tickSystems = true ∧
    allowedOrder [Sys.movement, Sys.wrapping, Sys.cohesion, Sys.seperation, Sys.alignment] = true ∧
    barrierOrder [Sys.movement, Sys.wrapping, Sys.cohesion, Sys.seperation, Sys.alignment] = false ∧
    runSchedule cfg0 W0 H0 tickSystems w80 ≠
      runSchedule cfg0 W0 H0
        [Sys.movement, Sys.wrapping, Sys.cohesion, Sys.seperation, Sys.alignment] w80 := by
  refine ⟨by decide, by decide, by decide, ?_⟩
  have hg : runSchedule cfg0 W0 H0 tickSystems w80 = w80good := by
    simp [runSchedule, tickSystems, runSys, cohesion_w80, seperation_w80a,
      alignment_w80a, movement_w80b, wrapping_w80good]
  have hb : runSchedule cfg0 W0 H0
      [Sys.movement, Sys.wrapping, Sys.cohesion, Sys.seperation, Sys.alignment] w80 = w80bad := by
    simp [runSchedule, runSys, movement_w80, wrapping_w80m, cohesion_w80m,
      seperation_w80mc, alignment_w80mc]
  rw [hg, hb]
  norm_num [w80good, w80bad, agent]

/-- C4: with the configuration inserted in `main` (speed 100, max steer 2,
seperation radius 50, seperation weight 1.5), the seperation system alone
sends the stationary birds at `(0,0)` and `(40,0)` to velocities `(-3,0)`
and `(3,0)` respectively. -/
theorem C4_concrete_seperation :
    seperation_system cfg0 w40 = [agent 0 0 (-3) 0, agent 40 0 3 0] :=
  seperation_w40

/-- C5: boundary wrap is a one-sided teleport with independent axes: a
bird past the right edge (`px - r > wr`, with `py` in bounds) is moved to
`x = -wr - r` with `y` and velocity unchanged; symmetrically for the left
edge and for the y axis against `hr`; and a diagonal exit wraps both axes
in the same tick.  The velocity is never touched. -/
theorem C5_wrap_round_trip (c : Config) (wr hr r px py : ℝ) (v : V)
    (hrad : c.radius = F.fin r) (hw : 0 < wr) (hh : 0 < hr) (hr0 : 0 < r) :
    (wrapAgent c (F.fin wr) (F.fin hr)
        { position := ⟨F.fin px, F.fin py⟩, velocity := v }).velocity = v ∧
    (wr < px - r → ¬ (hr < py - r) → ¬ (py + r < -hr) →
      (wrapAgent c (F.fin wr) (F.fin hr)
          { position := ⟨F.fin px, F.fin py⟩, velocity := v }).position =
        ⟨F.fin (-wr - r), F.fin py⟩) ∧
    (px + r < -wr → ¬ (hr < py - r) → ¬ (py + r < -hr) →
      (wrapAgent c (F.fin wr) (F.fin hr)
          { position := ⟨F.fin px, F.fin py⟩, velocity := v }).position =
        ⟨F.fin (wr + r), F.fin py⟩) ∧
    (hr < py - r → ¬ (wr < px - r) → ¬ (px + r < -wr) →
      (wrapAgent c (F.fin wr) (F.fin hr)
          { position := ⟨F.fin px, F.fin py⟩, velocity := v }).position =
        ⟨F.fin px, F.fin (-hr - r)⟩) ∧
    (py + r < -hr → ¬ (wr < px - r) → ¬ (px + r < -wr) →
      (wrapAgent c (F.fin wr) (F.fin hr)
          { position := ⟨F.fin px, F.fin py⟩, velocity := v }).position =
        ⟨F.fin px, F.fin (hr + r)⟩) ∧
    (wr < px - r → hr < py - r →
      (wrapAgent c (F.fin wr) (F.fin hr)
          { position := ⟨F.fin px, F.fin py⟩, velocity := v }).position =
        ⟨F.fin (-wr - r), F.fin (-hr - r)⟩) := by
  rw [wrapAgent_fin c wr hr r px py v hrad]
  refine ⟨rfl, ?_, ?_, ?_, ?_, ?_⟩
  · intro h1 h2 h3
    simp only [if_pos h1, if_neg h2, if_neg h3]
  · intro h1 h2 h3
    have hx : ¬ (wr < px - r) := by linarith
    simp only [if_neg hx, if_pos h1, if_neg h2, if_neg h3]
  · intro h1 h2 h3
    simp only [if_pos h1, if_neg h2, if_neg h3]
  · intro h1 h2 h3
    have hy : ¬ (hr < py - r) := by linarith
    simp only [if_neg hy, if_pos h1, if_neg h2, if_neg h3]
  · intro h1 h2
    simp only [if_pos h1, if_pos h2]

/-- C5 witness: with the code's radius 32 and half-extents 800 × 450, a
bird at `(900, 7)` is teleported to `(-832, 7)` with its velocity kept. -/
theorem C5_witness :
    (wrapAgent cfg0 (F.fin 800) (F.fin 450)
        { position := ⟨F.fin 900, F.fin 7⟩, velocity := ⟨F.fin 1, F.fin 2⟩ }).velocity =
      ⟨F.fin 1, F.fin 2⟩ ∧
    (wrapAgent cfg0 (F.fin 800) (F.fin 450)
        { position := ⟨F.fin 900, F.fin 7⟩, velocity := ⟨F.fin 1, F.fin 2⟩ }).position =
      ⟨F.fin (-800 - 32), F.fin 7⟩ := by
  have h := C5_wrap_round_trip cfg0 800 450 32 900 7 ⟨F.fin 1, F.fin 2⟩ rfl
    (by norm_num) (by norm_num) (by norm_num)
  exact ⟨h.1, h.2.1 (by norm_num) (by norm_num) (by norm_num)⟩

/-- C10: boundary wrap is idempotent on finite positions when the
half-extents and the radius are positive: wrapping a just-wrapped bird
changes nothing. -/
theorem C10_wrap_idempotent (c : Config) (wr hr r px py : ℝ) (v : V)
    (hrad : c.radius = F.fin r) (hw : 0 < wr) (hh : 0 < hr) (hr0 : 0 < r) :
    wrapAgent c (F.fin wr) (F.fin hr)
        (wrapAgent c (F.fin wr) (F.fin hr)
          { position := ⟨F.fin px, F.fin py⟩, velocity := v }) =
      wrapAgent c (F.fin wr) (F.fin hr)
        { position := ⟨F.fin px, F.fin py⟩, velocity := v } := by
  rw [wrapAgent_fin c wr hr r px py v hrad]
  rw [wrapAgent_fin c wr hr r _ _ v hrad]
  simp only [Agent.mk.injEq, V.mk.injEq, F.fin.injEq, and_true]
  constructor <;> split_ifs <;> linarith

theorem cohesion_get_position (c : Config) (w : List Agent) (j : ℕ) (hj : j < w.length)
    (hj2 : j < (cohesion_system c w).length) :
    ((cohesion_system c w).get ⟨j, hj2⟩).position = (w.get ⟨j, hj⟩).position := by
  rw [cohesion_system_get c w j hj hj2, cohesionStep_position]

theorem seperation_get_position (c : Config) (w : List Agent) (j : ℕ) (hj : j < w.length)
    (hj2 : j < (seperation_system c w).length) :
    ((seperation_system c w).get ⟨j, hj2⟩).position = (w.get ⟨j, hj⟩).position := by
  rw [seperation_system_get c w j hj hj2, seperationStep_position]

/-- C6: isolation.  If no other bird is within `neighbour_radius` or
`seperation_radius` of bird `i`, running the three steering systems leaves
bird `i`'s velocity exactly unchanged, and the integrator then advances
its position by exactly `velocity * PHYSICS_STEP`. -/
theorem C6_isolation (c : Config) (w : List Agent) (i : ℕ) (hi : i < w.length)
    (hfar : ∀ j, ∀ hj : j < w.length, j ≠ i →
      ¬ F.lt (V.dist (w.get ⟨i, hi⟩).position ((w.get ⟨j, hj⟩).position))
          c.neighbour_radius ∧
      ¬ F.lt (V.dist (w.get ⟨i, hi⟩).position ((w.get ⟨j, hj⟩).position))
          c.seperation_radius) :
    ((alignment_system c (seperation_system c (cohesion_system c w))).get
        ⟨i, by simpa using hi⟩).velocity = (w.get ⟨i, hi⟩).velocity ∧
    ((movement_system (alignment_system c (seperation_system c (cohesion_system c w)))).get
        ⟨i, by simpa using hi⟩).position =
      V.add (w.get ⟨i, hi⟩).position (V.muls (w.get ⟨i, hi⟩).velocity PHYSICS_STEP) := by
  have hi1 : i < (cohesion_system c w).length := by simpa using hi
  have hi2 : i < (seperation_system c (cohesion_system c w)).length := by simpa using hi
  have hi3 : i < (alignment_system c (seperation_system c (cohesion_system c w))).length := by
    simpa using hi
  have e1 : (cohesion_system c w).get ⟨i, hi1⟩ = w.get ⟨i, hi⟩ := by
    rw [cohesion_system_get c w i hi hi1]
    apply cohesionStep_far
    intro b hb hbne
    rcases mem_posSnapshot w b hb with ⟨j, hj, rfl⟩
    exact (hfar j hj (by simpa using hbne)).1
  have p1 : ∀ j, ∀ hj : j < w.length, ∀ hj2 : j < (cohesion_system c w).length,
      ((cohesion_system c w).get ⟨j, hj2⟩).position = (w.get ⟨j, hj⟩).position :=
    fun j hj hj2 => cohesion_get_position c w j hj hj2
  have e2 : (seperation_system c (cohesion_system c w)).get ⟨i, hi2⟩ = w.get ⟨i, hi⟩ := by
    rw [seperation_system_get c _ i hi1 hi2, e1]
    apply seperationStep_far
    intro b hb hbne
    rcases mem_posSnapshot _ b hb with ⟨j, hj1, rfl⟩
    have hj : j < w.length := by simpa using hj1
    dsimp only
    rw [p1 j hj hj1]
    exact (hfar j hj (by simpa using hbne)).2
  have p2 : ∀ j, ∀ hj : j < w.length,
      ∀ hj2 : j < (seperation_system c (cohesion_system c w)).length,
      ((seperation_system c (cohesion_system c w)).get ⟨j, hj2⟩).position =
        (w.get ⟨j, hj⟩).position := by
    intro j hj hj2
    have hj1 : j < (cohesion_system c w).length := by simpa using hj
    rw [seperation_get_position c _ j hj1 hj2, p1 j hj hj1]
  have e3 : (alignment_system c (seperation_system c (cohesion_system c w))).get ⟨i, hi3⟩ =
      w.get ⟨i, hi⟩ := by
    rw [alignment_system_get c _ i hi2 hi3, e2]
    apply alignmentStep_far
    intro b hb hbne
    rcases mem_posVelSnapshot _ b hb with ⟨j, hj2, rfl⟩
    have hj : j < w.length := by simpa using hj2
    dsimp only
    rw [p2 j hj hj2]
    exact (hfar j hj (by simpa using hbne)).1
  constructor
  · rw [e3]
  · rw [movement_system_get _ i hi3 (by simpa using hi), e3]

/-- The isolation witness world: two birds 1000 apart. -/
def wIso : List Agent := [agent 0 0 6 0, agent 1000 0 0 0]

/-- C6 witness: in `wIso` bird 0 keeps velocity `(6, 0)` through the
steering systems, and the integrator moves it to `(1/10, 0)`. -/
theorem C6_witness :
    ((alignment_system cfg0 (seperation_system cfg0 (cohesion_system cfg0 wIso))).get
        ⟨0, by simp [wIso]⟩).velocity = ⟨F.fin 6, F.fin 0⟩ ∧
    ((movement_system (alignment_system cfg0 (seperation_system cfg0 (cohesion_system cfg0 wIso)))).get
        ⟨0, by simp [wIso]⟩).position = ⟨F.fin (1 / 10), F.fin 0⟩ := by
  have h0 : (0 : ℕ) < wIso.length := by simp [wIso]
  have hfar : ∀ j, ∀ hj : j < wIso.length, j ≠ 0 →
      ¬ F.lt (V.dist (wIso.get ⟨0, h0⟩).position ((wIso.get ⟨j, hj⟩).position))
          cfg0.neighbour_radius ∧
      ¬ F.lt (V.dist (wIso.get ⟨0, h0⟩).position ((wIso.get ⟨j, hj⟩).position))
          cfg0.seperation_radius := by
    intro j hj hne
    have hj2 : j < 2 := by simpa [wIso] using hj
    interval_cases j
    · exact absurd rfl hne
    · constructor <;>
        norm_num [wIso, agent, cfg0, List.get, V.dist_axis, abs_of_nonneg, abs_of_nonpos]
  have h := C6_isolation cfg0 wIso 0 h0 hfar
  constructor
  · rw [h.1]
    norm_num [wIso, agent, List.get]
  · rw [h.2]
    norm_num [wIso, agent, List.get, PHYSICS_STEP, V.add, V.muls]

/-- C10 witness: wrapping the bird at `(900, -500)` twice equals wrapping
it once (it lands at `(-832, 482)` and stays there). -/
theorem C10_witness :
    wrapAgent cfg0 (F.fin 800) (F.fin 450)
        (wrapAgent cfg0 (F.fin 800) (F.fin 450)
          { position := ⟨F.fin 900, F.fin (-500)⟩, velocity := ⟨F.fin 0, F.fin 0⟩ }) =
      wrapAgent cfg0 (F.fin 800) (F.fin 450)
        { position := ⟨F.fin 900, F.fin (-500)⟩, velocity := ⟨F.fin 0, F.fin 0⟩ } :=
  C10_wrap_idempotent cfg0 800 450 32 900 (-500) ⟨F.fin 0, F.fin 0⟩ rfl
    (by norm_num) (by norm_num) (by norm_num)

theorem map_snd_withIndices_id {α : Type} (n : ℕ) (l : List α) :
    (withIndices n l).map (fun q => q.2) = l := by
  induction l generalizing n with
  | nil => rfl
  | cons a t ih => simp [withIndices, ih]

/-- C7: the per-rule steering clamp.  For a finite steering delta `(sx, sy)`
and a positive cap `m` (`configuration.steer`): if the delta's length
exceeds `m` the clamp rescales it to length exactly `m`; and after
multiplying the clamped delta by a nonnegative rule weight, the velocity
change applied by the rule has magnitude at most `weight * m`. -/
theorem C7_steering_clamp (m wgt sx sy : ℝ) (hm : 0 < m) (hw : 0 ≤ wgt) :
    (F.lt (F.fin m) (V.length ⟨F.fin sx, F.fin sy⟩) →
      V.length (clampSteer (F.fin m) ⟨F.fin sx, F.fin sy⟩) = F.fin m) ∧
    F.le (V.length (V.muls (clampSteer (F.fin m) ⟨F.fin sx, F.fin sy⟩) (F.fin wgt)))
      (F.fin (wgt * m)) := by
  have hL0 : 0 ≤ Real.sqrt (sx * sx + sy * sy) := Real.sqrt_nonneg _
  have hLsq : Real.sqrt (sx * sx + sy * sy) * Real.sqrt (sx * sx + sy * sy) =
      sx * sx + sy * sy := Real.mul_self_sqrt (by nlinarith)
  by_cases hlt : m < Real.sqrt (sx * sx + sy * sy)
  · have hLne : Real.sqrt (sx * sx + sy * sy) ≠ 0 := (hm.trans hlt).ne'
    have hs : sx * sx + sy * sy ≠ 0 := by
      intro h0
      exact hLne (by rw [h0, Real.sqrt_zero])
    have key : ∀ t : ℝ,
        (sx * (1 / Real.sqrt (sx * sx + sy * sy)) * t) *
          (sx * (1 / Real.sqrt (sx * sx + sy * sy)) * t) +
        (sy * (1 / Real.sqrt (sx * sx + sy * sy)) * t) *
          (sy * (1 / Real.sqrt (sx * sx + sy * sy)) * t) = t * t := by
      intro t
      have e1 : (sx * (1 / Real.sqrt (sx * sx + sy * sy)) * t) *
          (sx * (1 / Real.sqrt (sx * sx + sy * sy)) * t) +
          (sy * (1 / Real.sqrt (sx * sx + sy * sy)) * t) *
          (sy * (1 / Real.sqrt (sx * sx + sy * sy)) * t) =
          (sx * sx + sy * sy) * (t * t) /
            (Real.sqrt (sx * sx + sy * sy) * Real.sqrt (sx * sx + sy * sy)) := by
        field_simp
        ring
      rw [e1, hLsq, mul_comm, mul_div_assoc, div_self hs, mul_one]
    have hcl : clampSteer (F.fin m) ⟨F.fin sx, F.fin sy⟩ =
        ⟨F.fin (sx * (1 / Real.sqrt (sx * sx + sy * sy)) * m),
          F.fin (sy * (1 / Real.sqrt (sx * sx + sy * sy)) * m)⟩ := by
      unfold clampSteer
      rw [length_fin, if_pos ((F.lt_fin_fin _ _).2 hlt), normalize_fin sx sy hLne]
      simp [V.muls]
    constructor
    · intro _
      rw [hcl, length_fin, key m, Real.sqrt_mul_self hm.le]
    · rw [hcl]
      simp only [V.muls_def, F.mul_fin_fin]
      rw [length_fin]
      have harg : (sx * (1 / Real.sqrt (sx * sx + sy * sy)) * m * wgt) *
          (sx * (1 / Real.sqrt (sx * sx + sy * sy)) * m * wgt) +
          (sy * (1 / Real.sqrt (sx * sx + sy * sy)) * m * wgt) *
          (sy * (1 / Real.sqrt (sx * sx + sy * sy)) * m * wgt) =
          (m * wgt) * (m * wgt) := by
        have := key (m * wgt)
        nlinarith [this]
      rw [harg, Real.sqrt_mul_self (by positivity)]
      simp only [F.le_fin_fin]
      linarith [mul_comm m wgt]
  · have hcl : clampSteer (F.fin m) ⟨F.fin sx, F.fin sy⟩ = ⟨F.fin sx, F.fin sy⟩ := by
      unfold clampSteer
      rw [length_fin, if_neg (fun hc => hlt ((F.lt_fin_fin _ _).1 hc))]
    constructor
    · intro hcond
      rw [length_fin] at hcond
      exact absurd ((F.lt_fin_fin _ _).1 hcond) hlt
    · rw [hcl]
      simp only [V.muls_def, F.mul_fin_fin]
      rw [length_fin]
      have harg : (sx * wgt) * (sx * wgt) + (sy * wgt) * (sy * wgt) =
          (wgt * wgt) * (sx * sx + sy * sy) := by ring
      rw [harg, Real.sqrt_mul (mul_self_nonneg wgt), Real.sqrt_mul_self hw]
      simp only [F.le_fin_fin]
      exact mul_le_mul_of_nonneg_left (not_lt.1 hlt) hw

/-- C7 witness: a delta of `(100, 0)` exceeds the cap 2, is clamped to
length exactly 2, and after the seperation weight 1.5 the applied change
has magnitude at most 3. -/
theorem C7_witness :
    (F.lt (F.fin 2) (V.length ⟨F.fin 100, F.fin 0⟩) →
      V.length (clampSteer (F.fin 2) ⟨F.fin 100, F.fin 0⟩) = F.fin 2) ∧
    F.le (V.length (V.muls (clampSteer (F.fin 2) ⟨F.fin 100, F.fin 0⟩) (F.fin (3 / 2))))
      (F.fin ((3 / 2) * 2)) :=
  C7_steering_clamp 2 (3 / 2) 100 0 (by norm_num) (by norm_num)

/-- A configuration with non-positive radii. -/
def cfgBad : Config :=
  { cfg0 with neighbour_radius := F.fin 0, seperation_radius := F.fin (-1) }

/-- A degenerate random source that always returns the lower bound. -/
def rngLo : ℕ → ℝ → ℝ → ℝ := fun _ lo _ => lo

/-- C8 counterexample: the claim says a configuration with non-positive
radii is rejected at initialization and the run does not start; but
`spawn_birds` performs no validation at all — with radii `0` and `-1` it
still creates the full population of 500 birds. -/
theorem C8_counterexample :
    cfgBad.neighbour_radius = F.fin 0 ∧ cfgBad.seperation_radius = F.fin (-1) ∧
    (spawn_birds 800 450 cfgBad rngLo).length = 500 :=
  ⟨rfl, rfl, by simp [spawn_birds, cfgBad, cfg0]⟩

/-- C8 amended: initialization performs no configuration validation: any
configuration, radii included, is accepted and `birds_amount` birds are
spawned; a run with non-positive `neighbour_radius` and
`seperation_radius` then silently proceeds with a neighbour scan that
finds zero neighbours — every steering system is the identity on every
world. -/
theorem C8_no_validation (c : Config) (nr sr : ℝ)
    (hn : c.neighbour_radius = F.fin nr) (hnr : nr ≤ 0)
    (hs : c.seperation_radius = F.fin sr) (hsr : sr ≤ 0) :
    (∀ (width height : ℝ) (rng : ℕ → ℝ → ℝ → ℝ),
      (spawn_birds width height c rng).length = c.birds_amount) ∧
    (∀ w : List Agent,
      cohesion_system c w = w ∧ seperation_system c w = w ∧ alignment_system c w = w) := by
  constructor
  · intro width height rng
    simp [spawn_birds]
  · intro w
    refine ⟨?_, ?_, ?_⟩
    · unfold cohesion_system
      rw [List.map_congr_left (fun p _ => cohesionStep_far c (posSnapshot w) p.1 p.2
        (fun b _ _ => by rw [hn]; exact not_dist_lt_nonpos _ _ nr hnr))]
      exact map_snd_withIndices_id 0 w
    · unfold seperation_system
      rw [List.map_congr_left (fun p _ => seperationStep_far c (posSnapshot w) p.1 p.2
        (fun b _ _ => by rw [hs]; exact not_dist_lt_nonpos _ _ sr hsr))]
      exact map_snd_withIndices_id 0 w
    · unfold alignment_system
      rw [List.map_congr_left (fun p _ => alignmentStep_far c (posVelSnapshot w) p.1 p.2
        (fun b _ _ => by rw [hn]; exact not_dist_lt_nonpos _ _ nr hnr))]
      exact map_snd_withIndices_id 0 w

/-- C8 witness: with the bad radii, spawning still creates the full
population and the steering systems leave the `w40` world untouched. -/
theorem C8_witness :
    (spawn_birds 800 450 cfgBad rngLo).length = cfgBad.birds_amount ∧
    cohesion_system cfgBad w40 = w40 ∧ seperation_system cfgBad w40 = w40 ∧
    alignment_system cfgBad w40 = w40 := by
  have h := C8_no_validation cfgBad 0 (-1) rfl (le_refl 0) rfl (by norm_num)
  exact ⟨h.1 800 450 rngLo, (h.2 w40).1, (h.2 w40).2.1, (h.2 w40).2.2⟩

/-- C9: initialization creates exactly `birds_amount` birds, each with a
position inside `[-width, width] × [-height, height]` and a velocity with
both components in `[-1, 1]` (for any random source respecting the
`gen_range` bounds), and no system afterwards creates or destroys birds
(every system preserves the population size). -/
theorem C9_spawn (width height : ℝ) (c : Config) (rng : ℕ → ℝ → ℝ → ℝ)
    (hw : 0 ≤ width) (hh : 0 ≤ height)
    (hrng : ∀ k lo hi, lo ≤ hi → lo ≤ rng k lo hi ∧ rng k lo hi ≤ hi) :
    (spawn_birds width height c rng).length = c.birds_amount ∧
    (∀ a ∈ spawn_birds width height c rng, ∃ px py vx vy : ℝ,
      a = agent px py vx vy ∧
      -width ≤ px ∧ px ≤ width ∧ -height ≤ py ∧ py ≤ height ∧
      -1 ≤ vx ∧ vx ≤ 1 ∧ -1 ≤ vy ∧ vy ≤ 1) ∧
    (∀ (c' : Config) (w : List Agent) (wd ht : F),
      (cohesion_system c' w).length = w.length ∧
      (seperation_system c' w).length = w.length ∧
      (alignment_system c' w).length = w.length ∧
      (movement_system w).length = w.length ∧
      (wrapping_system c' wd ht w).length = w.length) := by
  refine ⟨by simp [spawn_birds], ?_, ?_⟩
  · intro a ha
    rcases List.mem_map.1 ha with ⟨k, hk, rfl⟩
    have h1 := hrng (4 * k) (-width) width (by linarith)
    have h2 := hrng (4 * k + 1) (-height) height (by linarith)
    have h3 := hrng (4 * k + 2) (-1) 1 (by norm_num)
    have h4 := hrng (4 * k + 3) (-1) 1 (by norm_num)
    exact ⟨rng (4 * k) (-width) width, rng (4 * k + 1) (-height) height,
      rng (4 * k + 2) (-1) 1, rng (4 * k + 3) (-1) 1, rfl,
      h1.1, h1.2, h2.1, h2.2, h3.1, h3.2, h4.1, h4.2⟩
  · intro c' w wd ht
    exact ⟨cohesion_system_length c' w, seperation_system_length c' w,
      alignment_system_length c' w, movement_system_length w,
      wrapping_system_length c' wd ht w⟩

/-- C9 witness: with the lower-bound random source and the code's window,
spawning creates exactly the configured 500 birds. -/
theorem C9_witness :
    (spawn_birds 800 450 cfg0 rngLo).length = cfg0.birds_amount :=
  (C9_spawn 800 450 cfg0 rngLo (by norm_num) (by norm_num)
    (fun k lo hi h => ⟨le_refl lo, h⟩)).1

end

end Flocking
